import Mathlib

/- Shallow embedding of tinyhtml (src/tinyhtml/__init__.py).

   Modelling conventions:
   - Tags are modelled as their string values: the Python Tag type is a
     StrEnum, so a tag compares equal to, hashes as, and renders as its
     lowercase string value.
   - Attribute values follow the union `Attr = str | int | float | bool |
     None | dict[str, str]`; floats are omitted from the model (no claim
     depends on a non-integral number, and 0.0 behaves exactly like 0 in
     the single place where equality with False matters).  Python keeps
     bool and int apart in render_attr via identity checks, so the model
     keeps separate constructors.
   - Python dicts are modelled as insertion-ordered association lists,
     matching dict iteration order.
   - Byte strings are modelled as lists of byte values.
   - Fallible operations (a constructor that may raise ValueError, a
     rendering that may raise TypeError) return Except String. -/

namespace TinyHtml

/-- Attribute value union of the source. -/
inductive Attr where
  | str : String → Attr
  | int : Int → Attr
  | bool : Bool → Attr
  | none : Attr
  | dict : List (String × String) → Attr
deriving DecidableEq

mutual
/-- Content union of the source: the primitives str, bytes, int, Element,
plus arbitrarily nested iterables (modelled as lists).  The `invalid`
constructor stands for any runtime value that is neither a primitive nor
an iterable; it carries the string form of the value's type, which is all
of the value that rendering ever inspects. -/
inductive Content where
  | str : String → Content
  | bytes : List Nat → Content
  | int : Int → Content
  | elem : Element → Content
  | seq : List Content → Content
  | invalid : String → Content

/-- The Element class: tag, void flag, preserve_whitespace flag,
attributes in insertion order, content tuple. -/
inductive Element where
  | mk : String → Bool → Bool → List (String × Attr) → List Content → Element
end

def Element.tag : Element → String
  | Element.mk t _ _ _ _ => t

def Element.is_void : Element → Bool
  | Element.mk _ v _ _ _ => v

def Element.preserve_whitespace : Element → Bool
  | Element.mk _ _ p _ _ => p

def Element.attrs : Element → List (String × Attr)
  | Element.mk _ _ _ a _ => a

def Element.content : Element → List Content
  | Element.mk _ _ _ _ c => c

/-- Python string "".join on a list, i.e. plain ordered concatenation. -/
def concatAll : List String → String
  | [] => ""
  | s :: rest => s ++ concatAll rest

/-- Python key.rstrip with argument underscore: removes every trailing
underscore character from the key. -/
def rstripUnderscore (s : String) : String :=
  String.mk ((s.data.reverse.dropWhile (fun c => c == '_')).reverse)

/-- Python semicolon join over the style mapping's items. -/
def styleJoin (d : List (String × String)) : String :=
  String.intercalate ";" (d.map (fun kv => kv.1 ++ ":" ++ kv.2))

def hexDigit (n : Nat) : Char :=
  if n < 10 then Char.ofNat (48 + n) else Char.ofNat (87 + n)

/-- Python repr of one byte inside a bytes literal: backslash escapes for
the backslash and the active quote, named escapes for tab, newline and
carriage return, a two-digit hex escape for every other byte outside
printable ASCII, and the plain character otherwise.  Byte 92 is the
backslash, 9 tab, 10 newline, 13 carriage return. -/
def byteRepr (quote : Nat) (c : Nat) : List Char :=
  if c == 92 || c == quote then [Char.ofNat 92, Char.ofNat c]
  else if c == 9 then [Char.ofNat 92, Char.ofNat 116]
  else if c == 10 then [Char.ofNat 92, Char.ofNat 110]
  else if c == 13 then [Char.ofNat 92, Char.ofNat 114]
  else if c < 32 || 126 < c then [Char.ofNat 92, Char.ofNat 120, hexDigit (c / 16 % 16), hexDigit (c % 16)]
  else [Char.ofNat c]

/-- Python bytes repr quote choice: a single quote (byte 39) unless the
data holds a single quote and no double quote (byte 34). -/
def bytesQuote (b : List Nat) : Nat :=
  if b.contains 39 && !(b.contains 34) then 34 else 39

/-- Python str of a bytes value, which is its repr: the letter b
(character 98), a quote, the escaped bytes, and the closing quote. -/
def bytesStr (b : List Nat) : String :=
  let q := bytesQuote b
  String.mk ([Char.ofNat 98, Char.ofNat q] ++ (b.map (byteRepr q)).flatten ++ [Char.ofNat q])

/-- Python repr quote choice for a str value. -/
def strQuote (s : String) : Nat :=
  if s.data.contains (Char.ofNat 39) && !(s.data.contains (Char.ofNat 34)) then 34 else 39

/-- Python repr of one character inside a str literal, restricted to the
ASCII-printable fragment the model uses: backslash escapes for backslash
and the active quote, named escapes for tab, newline, carriage return, a
hex escape for other ASCII control characters and delete.  (CPython
additionally escapes non-printable non-ASCII characters; the model keeps
every character above 126 as itself.) -/
def charRepr (quote : Nat) (c : Char) : List Char :=
  if c.toNat == 92 || c.toNat == quote then [Char.ofNat 92, c]
  else if c.toNat == 9 then [Char.ofNat 92, Char.ofNat 116]
  else if c.toNat == 10 then [Char.ofNat 92, Char.ofNat 110]
  else if c.toNat == 13 then [Char.ofNat 92, Char.ofNat 114]
  else if c.toNat < 32 || c.toNat == 127 then [Char.ofNat 92, Char.ofNat 120, hexDigit (c.toNat / 16 % 16), hexDigit (c.toNat % 16)]
  else [c]

/-- Python repr of a str value. -/
def pyStrRepr (s : String) : String :=
  let q := strQuote s
  String.mk ([Char.ofNat q] ++ (s.data.map (charRepr q)).flatten ++ [Char.ofNat q])

/-- Python str of a dict of strings, as produced by the generic attribute
branch when a dict value sits under a key other than style: reprs of the
keys and values, colon-space separated pairs, comma-space separated items,
wrapped in braces. -/
def pyDictStr (d : List (String × String)) : String :=
  "\x7b" ++ String.intercalate ", " (d.map (fun kv => pyStrRepr kv.1 ++ ": " ++ pyStrRepr kv.2)) ++ "\x7d"

/-- The membership filter in Element.__str__: Python `v not in (False,
None)` compares with equality, so the bool False, None, and any number
equal to zero are filtered out.  This returns true when the value IS
equal to False or None. -/
def attrEqFalseOrNone : Attr → Bool
  | Attr.bool b => !b
  | Attr.none => true
  | Attr.int n => n == 0
  | _ => false

/-- render_attr of the source: strips trailing underscores from the key,
emits a bare name for True, nothing for False or None, a semicolon-joined
style string for a dict under the style key, and the generic quoted form
otherwise. -/
def render_attr (key : String) (value : Attr) : String :=
  let name := rstripUnderscore key
  match value with
  | Attr.bool true => " " ++ name
  | Attr.bool false => ""
  | Attr.none => ""
  | Attr.dict d =>
    if name == "style" then " style=\"" ++ styleJoin d ++ "\""
    else " " ++ name ++ "=\"" ++ pyDictStr d ++ "\""
  | Attr.str s => " " ++ name ++ "=\"" ++ s ++ "\""
  | Attr.int n => " " ++ name ++ "=\"" ++ toString n ++ "\""

/-- The attribute segment built in Element.__str__: join of render_attr
over the attribute items in insertion order, filtered by the membership
test against False and None. -/
def attrsStr (attrs : List (String × Attr)) : String :=
  concatAll ((attrs.filter (fun kv => !attrEqFalseOrNone kv.2)).map (fun kv => render_attr kv.1 kv.2))

mutual
/-- render_content of the source: a primitive renders via str (an Element
recursively through its own __str__), an iterable as the join of its
items' renderings, and anything else raises TypeError with a message
naming the value's type. -/
def render_content : Content → Except String String
  | Content.str s => Except.ok s
  | Content.bytes b => Except.ok (bytesStr b)
  | Content.int n => Except.ok (toString n)
  | Content.elem e => elementStr e
  | Content.seq xs => renderList xs
  | Content.invalid t => Except.error ("Invalid content type: " ++ t)

/-- The join over an iterable inside render_content; the first failing
item's error propagates, exactly like the exception from Python's
generator expression. -/
def renderList : List Content → Except String String
  | [] => Except.ok ""
  | x :: xs =>
    match render_content x with
    | Except.error m => Except.error m
    | Except.ok s =>
      match renderList xs with
      | Except.error m => Except.error m
      | Except.ok rest => Except.ok (s ++ rest)

/-- Element.__str__ of the source: attribute segment first, then the void
form, the empty form, and the two content forms depending on
preserve_whitespace. -/
def elementStr : Element → Except String String
  | Element.mk tag void pw attrs content =>
    let a := attrsStr attrs
    if void then Except.ok ("<" ++ tag ++ a ++ "/>")
    else if content.isEmpty then Except.ok ("<" ++ tag ++ a ++ "></" ++ tag ++ ">")
    else
      match renderList content with
      | Except.error m => Except.error m
      | Except.ok s =>
        if pw then Except.ok ("<" ++ tag ++ a ++ ">\n" ++ s ++ "\n</" ++ tag ++ ">")
        else Except.ok ("<" ++ tag ++ a ++ ">" ++ s ++ "</" ++ tag ++ ">")
end

/-- The DEFAULT_ATTRS table of the source. -/
def DEFAULT_ATTRS : List (String × List (String × Attr)) :=
  [("script", [("type", Attr.str "text/javascript")]),
   ("style", [("type", Attr.str "text/css")]),
   ("input", [("type", Attr.str "text")]),
   ("meta", [("charset", Attr.str "utf-8")])]

/-- One dict.setdefault step: keep the list unchanged when the key is
already present, otherwise append the pair at the end (dict insertion
order). -/
def setdefaultOne (attrs : List (String × Attr)) (kv : String × Attr) : List (String × Attr) :=
  if attrs.any (fun a => a.1 == kv.1) then attrs else attrs ++ [kv]

/-- The default-attribute merge loop of Element.__init__: when the tag is
in DEFAULT_ATTRS, setdefault each of its default pairs in order. -/
def applyDefaults (tag : String) (attrs : List (String × Attr)) : List (String × Attr) :=
  match DEFAULT_ATTRS.find? (fun e => e.1 == tag) with
  | Option.some e => e.2.foldl setdefaultOne attrs
  | Option.none => attrs

/-- The ValueError message raised for a void element given content. -/
def voidMessage (tag : String) : String :=
  "Void element <" ++ tag ++ "> cannot have content"

/-- Element.__init__ of the source: stores tag and flags, merges default
attributes with setdefault semantics, raises ValueError when a void
element is given non-empty content, and otherwise stores the content as
given without inspecting it. -/
def Element.init (tag : String) (content : List Content) (void : Bool)
    (preserve_whitespace : Bool) (attrs : List (String × Attr)) : Except String Element :=
  let merged := applyDefaults tag attrs
  if void && !content.isEmpty then Except.error (voidMessage tag)
  else Except.ok (Element.mk tag void preserve_whitespace merged content)

/-- Element.__call__ of the source, the content setter: the void check
runs before the assignment, so on failure the returned state is the
element unchanged paired with the error; on success the element with
replaced content paired with no error. -/
def Element.call (e : Element) (content : List Content) : Element × Option String :=
  if e.is_void && !content.isEmpty then
    (e, Option.some (voidMessage e.tag))
  else
    (Element.mk e.tag e.is_void e.preserve_whitespace e.attrs content, Option.none)

/-- The element factory of the source: fixes the tag and the two flags
and forwards content and attributes to the Element constructor. -/
def element (tag : String) (void : Bool) (preserve_whitespace : Bool) :
    List Content → List (String × Attr) → Except String Element :=
  fun content attrs => Element.init tag content void preserve_whitespace attrs

/- A representative subset of the pre-defined factory catalog of the
source (the full catalog fixes one tag each with the same three flag
patterns). -/
def Html := element "html" false false
def Head := element "head" false false
def Body := element "body" false false
def Title := element "title" false false
def Meta := element "meta" true false
def Style := element "style" false true
def Script := element "script" false true
def Div := element "div" false false
def P := element "p" false false
def Pre := element "pre" false true
def Span := element "span" false false
def Br := element "br" true false
def Hr := element "hr" true false
def Input := element "input" true false
def Img := element "img" true false

/-- Modelled from the spec: the doctype helper is absent from the copy of
the library under src (the spec records variant implementations of the
same library, with and without the doctype special case); the spec states
that it is a no-argument helper returning the literal doctype string, a
plain string and not an Element. -/
def doctype : String := "<!DOCTYPE html>"

/-- Attribute encoding as the amended specification states it: one
fragment per attribute in insertion order; True gives a bare name; False,
None, and a number equal to zero give nothing; a dict under the style key
(after underscore stripping) gives the semicolon-joined style form; and
any other string or number gives the generic quoted form with no escaping.
A dict under a key other than style, which the claim leaves unspecified,
follows the code's generic branch through the dict's string form. -/
def claimAttrFragment (key : String) (value : Attr) : String :=
  let name := rstripUnderscore key
  match value with
  | Attr.bool true => " " ++ name
  | Attr.bool false => ""
  | Attr.none => ""
  | Attr.int n => if n == 0 then "" else " " ++ name ++ "=\"" ++ toString n ++ "\""
  | Attr.str s => " " ++ name ++ "=\"" ++ s ++ "\""
  | Attr.dict d =>
    if name == "style" then " style=\"" ++ styleJoin d ++ "\""
    else " " ++ name ++ "=\"" ++ pyDictStr d ++ "\""

/-- The per-item renderings of a content list, in order, stopping at the
first failure; the specification's view of content joining. -/
def renderEach : List Content → Except String (List String)
  | [] => Except.ok []
  | x :: xs =>
    match render_content x with
    | Except.error m => Except.error m
    | Except.ok s =>
      match renderEach xs with
      | Except.error m => Except.error m
      | Except.ok rest => Except.ok (s :: rest)

theorem empty_append_str (s : String) : "" ++ s = s := by
  cases s with
  | mk data => rfl

theorem claimAttrFragment_of_filtered (k : String) (v : Attr)
    (h : attrEqFalseOrNone v = true) : claimAttrFragment k v = "" := by
  cases v with
  | bool b =>
    cases b with
    | false => rfl
    | true => simp [attrEqFalseOrNone] at h
  | none => rfl
  | int n =>
    simp only [attrEqFalseOrNone] at h
    simp [claimAttrFragment, h]
  | str s => simp [attrEqFalseOrNone] at h
  | dict d => simp [attrEqFalseOrNone] at h

theorem claimAttrFragment_of_kept (k : String) (v : Attr)
    (h : attrEqFalseOrNone v = false) : claimAttrFragment k v = render_attr k v := by
  cases v with
  | bool b =>
    cases b with
    | true => rfl
    | false => simp [attrEqFalseOrNone] at h
  | none => simp [attrEqFalseOrNone] at h
  | int n =>
    simp only [attrEqFalseOrNone] at h
    simp [claimAttrFragment, render_attr, h]
  | str s => rfl
  | dict d => rfl

theorem attrsStr_eq_claim (attrs : List (String × Attr)) :
    attrsStr attrs = concatAll (attrs.map (fun kv => claimAttrFragment kv.1 kv.2)) := by
  induction attrs with
  | nil => rfl
  | cons kv rest ih =>
    cases hv : attrEqFalseOrNone kv.2 with
    | true =>
      have h1 := claimAttrFragment_of_filtered kv.1 kv.2 hv
      simp only [attrsStr, List.filter_cons, hv, Bool.not_true, List.map_cons, concatAll, h1,
        if_false, empty_append_str]
      exact ih
    | false =>
      have h1 := claimAttrFragment_of_kept kv.1 kv.2 hv
      simp only [attrsStr, List.filter_cons, hv, Bool.not_false, List.map_cons, concatAll, h1,
        if_true]
      rw [← ih]
      rfl

theorem dropWhile_replicate_append (p : Char → Bool) (c : Char) (hc : p c = true)
    (n : Nat) (l : List Char) :
    (List.replicate n c ++ l).dropWhile p = l.dropWhile p := by
  induction n with
  | zero => rfl
  | succ n ih => simp [List.replicate_succ, List.dropWhile_cons, hc, ih]

theorem dropWhile_of_head_ne (p : Char → Bool) (l : List Char)
    (h : ∀ c, l.head? = Option.some c → p c = false) :
    l.dropWhile p = l := by
  cases l with
  | nil => rfl
  | cons c t => simp [List.dropWhile_cons, h c rfl]

theorem renderList_eq_each (xs : List Content) :
    renderList xs = Except.map concatAll (renderEach xs) := by
  induction xs with
  | nil => simp [renderList, renderEach, Except.map, concatAll]
  | cons x xs ih =>
    simp only [renderList, renderEach]
    cases hx : render_content x with
    | error m => simp [Except.map]
    | ok s =>
      rw [ih]
      cases he : renderEach xs with
      | error m => simp [Except.map]
      | ok rest => simp [Except.map, concatAll]

theorem foldl_setdefault_extends (ds : List (String × Attr)) :
    ∀ acc : List (String × Attr), ∃ extra, ds.foldl setdefaultOne acc = acc ++ extra ∧
      ∀ kv, kv ∈ extra → ∀ a, a ∈ acc → a.1 ≠ kv.1 := by
  induction ds with
  | nil =>
    intro acc
    exact ⟨[], by simp, by simp⟩
  | cons d ds ih =>
    intro acc
    rw [List.foldl_cons]
    cases hp : acc.any (fun a => a.1 == d.1) with
    | true =>
      have hstep : setdefaultOne acc d = acc := by simp [setdefaultOne, hp]
      rw [hstep]
      exact ih acc
    | false =>
      have hstep : setdefaultOne acc d = acc ++ [d] := by simp [setdefaultOne, hp]
      rw [hstep]
      obtain ⟨extra, he, hmem⟩ := ih (acc ++ [d])
      refine ⟨d :: extra, ?_, ?_⟩
      · rw [he, List.append_assoc]
        rfl
      · have hnotkey : ∀ b ∈ acc, ¬(b.1 = d.1) := by
          simpa using hp
        intro kv hkv a ha
        cases hkv with
        | head => exact hnotkey a ha
        | tail _ htail => exact hmem kv htail a (List.mem_append_left _ ha)

/-- C1 counterexample: an attribute whose value is the number 0 is
entirely absent from the rendered output, although the claim requires the
fragment with the name and quoted value for every number; Python's
membership filter against False and None compares with equality, and the
number zero is equal to False. -/
theorem attribute_zero_dropped :
    elementStr (Element.mk "div" false false [("tabindex", Attr.int 0)] [])
      = Except.ok "<div></div>" ∧
    ("<div></div>" : String) ≠ "<div tabindex=\"0\"></div>" := by
  constructor
  · simp [elementStr, attrsStr, attrEqFalseOrNone, concatAll]
  · decide

/-- C1 (amended): render emits the attributes of an Element in insertion
order, one fragment per attribute with no sorting and no escaping: a True
value gives a bare space-name; a False value, a None value, and a number
equal to zero give nothing; a string-to-string mapping under the style key
(after underscore stripping) gives the semicolon-joined style fragment in
insertion order; every other string or nonzero number gives the generic
space-name-equals-quoted-value fragment using the value's plain string
conversion; and for a non-void Element this segment sits between the tag
name and the closing bracket. -/
theorem attribute_encoding_contract (attrs : List (String × Attr)) (tag : String) (pw : Bool) :
    attrsStr attrs = concatAll (attrs.map (fun kv => claimAttrFragment kv.1 kv.2)) ∧
    elementStr (Element.mk tag false pw attrs [])
      = Except.ok ("<" ++ tag ++ attrsStr attrs ++ "></" ++ tag ++ ">") := by
  constructor
  · exact attrsStr_eq_claim attrs
  · simp [elementStr]

/-- C2 counterexample: a key with two trailing underscores loses both of
them, although the claim says exactly one is stripped. -/
theorem double_underscore_fully_stripped :
    render_attr "foo__" (Attr.bool true) = " foo" ∧
    (" foo" : String) ≠ " foo_" := by
  constructor
  · rfl
  · decide

/-- C2 (amended): rendering strips every trailing underscore from an
attribute key before emission (Python rstrip); in particular a key with
exactly one trailing underscore such as the class alias is emitted as the
bare reserved word, with the boolean-true rule then applied to its
value. -/
theorem trailing_underscores_all_stripped (k s2 : String) (n : Nat)
    (hk : k.data.getLast? ≠ Option.some '_')
    (hs : s2.data = k.data ++ List.replicate n '_') :
    rstripUnderscore s2 = k ∧
    render_attr s2 (Attr.bool true) = " " ++ k ∧
    (∀ v : String, render_attr s2 (Attr.str v) = " " ++ k ++ "=\"" ++ v ++ "\"") := by
  have hdw : (k.data.reverse).dropWhile (fun c => c == '_') = k.data.reverse := by
    refine dropWhile_of_head_ne _ _ ?_
    intro c hc
    rw [List.head?_reverse] at hc
    have hne : c ≠ '_' := fun he => hk (he ▸ hc)
    simpa using hne
  have hstrip : rstripUnderscore s2 = k := by
    unfold rstripUnderscore
    rw [hs, List.reverse_append, List.reverse_replicate,
      dropWhile_replicate_append _ '_' (by decide), hdw, List.reverse_reverse]
  refine ⟨hstrip, ?_, ?_⟩
  · simp [render_attr, hstrip]
  · intro v
    simp [render_attr, hstrip]

/-- Witness for the amended C2 theorem at the spec's own example key. -/
theorem trailing_underscores_all_stripped_spot :
    ("class".data.getLast? ≠ Option.some '_') ∧
    ("class_".data = "class".data ++ List.replicate 1 '_') ∧
    render_attr "class_" (Attr.bool true) = " class" :=
  ⟨by decide, by decide,
    (trailing_underscores_all_stripped "class" "class_" 1 (by decide) (by decide)).2.1⟩

/-- C3: the code renders a bytes content leaf through Python str, which
for bytes is the debug repr with a b prefix and quotes, not the decoded
character content: the three bytes of abc render as the six characters
b, quote, a, b, c, quote. -/
theorem bytes_content_renders_repr :
    render_content (Content.bytes [97, 98, 99])
      = Except.ok (String.mk [Char.ofNat 98, Char.ofNat 39, Char.ofNat 97,
          Char.ofNat 98, Char.ofNat 99, Char.ofNat 39]) ∧
    String.mk [Char.ofNat 98, Char.ofNat 39, Char.ofNat 97,
      Char.ofNat 98, Char.ofNat 99, Char.ofNat 39] ≠ "abc" := by
  constructor
  · have hb : bytesStr [97, 98, 99] = String.mk [Char.ofNat 98, Char.ofNat 39, Char.ofNat 97,
        Char.ofNat 98, Char.ofNat 99, Char.ofNat 39] := by decide
    simp [render_content, hb]
  · decide

/-- C4: constructing any Element with the void flag and non-empty content
fails with the void-content ValueError, and the content setter of any
void Element fails with the same error on non-empty content; the check
runs at both sites. -/
theorem void_content_rejected (tag : String) (pw : Bool) (attrs : List (String × Attr))
    (content : List Content) (h : content ≠ []) (e : Element) (hv : e.is_void = true) :
    Element.init tag content true pw attrs = Except.error (voidMessage tag) ∧
    (Element.call e content).2 = Option.some (voidMessage e.tag) := by
  have hne : content.isEmpty = false := by
    cases content with
    | nil => exact absurd rfl h
    | cons a l => rfl
  constructor
  · simp [Element.init, hne]
  · simp [Element.call, hv, hne]

/-- Witness for C4 at a concrete void construction and setter call. -/
theorem void_content_rejected_spot :
    (([Content.str "x"] : List Content) ≠ []) ∧
    (Element.mk "img" true false [] []).is_void = true ∧
    Element.init "br" [Content.str "x"] true false [] = Except.error (voidMessage "br") :=
  ⟨List.cons_ne_nil _ _, rfl,
    (void_content_rejected "br" false [] [Content.str "x"] (List.cons_ne_nil _ _)
      (Element.mk "img" true false [] []) rfl).1⟩

/-- C5: construction of a non-void Element always succeeds and stores the
content untouched, even when the content holds a leaf that is neither a
primitive nor an iterable; the TypeError naming the offending value's
type is raised only by rendering. -/
theorem construction_defers_content_validation (tag : String) (pw : Bool)
    (attrs : List (String × Attr)) (content : List Content) (t : String)
    (rest : List Content) :
    Element.init tag content false pw attrs
      = Except.ok (Element.mk tag false pw (applyDefaults tag attrs) content) ∧
    render_content (Content.invalid t) = Except.error ("Invalid content type: " ++ t) ∧
    elementStr (Element.mk tag false pw attrs (Content.invalid t :: rest))
      = Except.error ("Invalid content type: " ++ t) := by
  refine ⟨by simp [Element.init], by simp [render_content], ?_⟩
  simp [elementStr, renderList, render_content]

/-- C6: a nested content sequence renders as the concatenation of its
items' renderings in order with no separators, at any finite nesting
depth (the render of each item is itself computed by the same recursive
algorithm); in particular a div with a string and a nested pair of
strings renders them flattened. -/
theorem nested_content_concatenation (xs : List Content) :
    render_content (Content.seq xs) = Except.map concatAll (renderEach xs) ∧
    elementStr (Element.mk "div" false false []
        [Content.str "a", Content.seq [Content.str "b", Content.str "c"]])
      = Except.ok "<div>abc</div>" := by
  constructor
  · simp only [render_content]
    exact renderList_eq_each xs
  · simp [elementStr, renderList, render_content, attrsStr, concatAll]

/-- C7: a non-void Element with non-empty content renders with newlines
around the content exactly when preserve_whitespace is set, and with the
content flush against the tags otherwise; in particular a
whitespace-preserving pre element with content x renders with the two
newlines. -/
theorem preserve_whitespace_wrapping (tag : String) (attrs : List (String × Attr))
    (content : List Content) (s : String) (h : content ≠ [])
    (hs : renderList content = Except.ok s) :
    elementStr (Element.mk tag false true attrs content)
      = Except.ok ("<" ++ tag ++ attrsStr attrs ++ ">\n" ++ s ++ "\n</" ++ tag ++ ">") ∧
    elementStr (Element.mk tag false false attrs content)
      = Except.ok ("<" ++ tag ++ attrsStr attrs ++ ">" ++ s ++ "</" ++ tag ++ ">") ∧
    elementStr (Element.mk "pre" false true [] [Content.str "x"])
      = Except.ok "<pre>\nx\n</pre>" := by
  have hne : content.isEmpty = false := by
    cases content with
    | nil => exact absurd rfl h
    | cons a l => rfl
  refine ⟨?_, ?_, by simp [elementStr, renderList, render_content, attrsStr, concatAll]⟩
  · simp [elementStr, hne, hs]
  · simp [elementStr, hne, hs]

/-- Witness for C7 at the spec's pre example. -/
theorem preserve_whitespace_wrapping_spot :
    (([Content.str "x"] : List Content) ≠ []) ∧
    renderList [Content.str "x"] = Except.ok "x" ∧
    elementStr (Element.mk "pre" false true [] [Content.str "x"])
      = Except.ok ("<" ++ "pre" ++ attrsStr [] ++ ">\n" ++ "x" ++ "\n</" ++ "pre" ++ ">") :=
  ⟨List.cons_ne_nil _ _, by simp [renderList, render_content],
    (preserve_whitespace_wrapping "pre" [] [Content.str "x"] "x" (List.cons_ne_nil _ _)
      (by simp [renderList, render_content])).1⟩

/-- C8: the factory is exactly direct Element construction with the
catalog's fixed flags baked in (hence equal tag, flags, attributes,
content, and rendered output); calling it with no content and no
attributes yields an Element with empty content whose attributes are the
tag's defaults merged with setdefault semantics: caller-supplied pairs
are kept unchanged in order and only missing default keys are
appended. -/
theorem factory_matches_direct_construction (tag : String) (v pw : Bool)
    (content : List Content) (attrs : List (String × Attr)) :
    element tag v pw content attrs = Element.init tag content v pw attrs ∧
    element tag v pw [] [] = Except.ok (Element.mk tag v pw (applyDefaults tag []) []) ∧
    (∃ extra, applyDefaults tag attrs = attrs ++ extra ∧
      ∀ kv, kv ∈ extra → ∀ a, a ∈ attrs → a.1 ≠ kv.1) := by
  refine ⟨rfl, ?_, ?_⟩
  · simp [element, Element.init]
  · unfold applyDefaults
    cases hf : DEFAULT_ATTRS.find? (fun e => e.1 == tag) with
    | none => exact ⟨[], by simp, by simp⟩
    | some e => exact foldl_setdefault_extends e.2 attrs

/-- C9: the doctype helper returns the literal doctype string; it is a
plain String by type, not an Element. -/
theorem doctype_is_literal : doctype = "<!DOCTYPE html>" := rfl

/-- C10: a failed content replacement on a void Element is atomic: the
returned state is the very same Element (same tag, flags, attributes and
content) paired with the error, so a subsequent render behaves exactly as
before the failed call. -/
theorem failed_replacement_is_atomic (e : Element) (content : List Content)
    (hv : e.is_void = true) (h : content ≠ []) :
    Element.call e content = (e, Option.some (voidMessage e.tag)) ∧
    (Element.call e content).1 = e ∧
    elementStr (Element.call e content).1 = elementStr e := by
  have hne : content.isEmpty = false := by
    cases content with
    | nil => exact absurd rfl h
    | cons a l => rfl
  have hc : Element.call e content = (e, Option.some (voidMessage e.tag)) := by
    simp [Element.call, hv, hne]
  exact ⟨hc, by rw [hc], by rw [hc]⟩

/-- Witness for C10 at a concrete void element. -/
theorem failed_replacement_is_atomic_spot :
    (Element.mk "br" true false [] []).is_void = true ∧
    (([Content.str "x"] : List Content) ≠ []) ∧
    Element.call (Element.mk "br" true false [] []) [Content.str "x"]
      = (Element.mk "br" true false [] [], Option.some (voidMessage "br")) :=
  ⟨rfl, List.cons_ne_nil _ _,
    (failed_replacement_is_atomic (Element.mk "br" true false [] []) [Content.str "x"]
      rfl (List.cons_ne_nil _ _)).1⟩

end TinyHtml
